import Mathlib

/-!
# Verification of the os-credit HLS video player

A shallow embedding, in Lean, of the pure and state-manipulating parts of
the repository's JavaScript sources:

* `VimeoAPI.extractVideoId` (vimeo.js) — regex-based Vimeo URL recognition;
* `VideoControls.formatTime` (controls.js) — clock rendering with NaN guard;
* `HLSPlayer` (player.js) — the adapter around hls.js: listener registry,
  `on`/`off`/`emit`, `loadSource`, the fatal-error recovery callback,
  `setVolume`, `destroy`;
* `VimeoHLSPlayer` (index.js) — the facade: `setupContainer`'s aspect-ratio
  arithmetic, `loadVimeo`'s resolution fallback, `showError`, `destroy`.

JavaScript numbers are modelled as exact rationals with an explicit
not-a-number marker; JavaScript object property lookup on the listener
registry is modelled own-keys-first with fallback to the properties
inherited from `Object.prototype`, as the language prescribes for object
literals.  Fallible calls return `Except`; network calls are oracles
passed in as functions.
-/

namespace VimeoHLS

/-! ## VimeoAPI.extractVideoId

The three patterns `/vimeo\.com\/(\d+)/`, `/vimeo\.com\/video\/(\d+)/`,
`/player\.vimeo\.com\/video\/(\d+)/` are each a literal followed by a
greedy digit group, matched unanchored with leftmost-match semantics
(`String.prototype.match`), tried in order; then the whole-string test
`/^\d+$/`; then `null`. -/

/-- Match a regex literal against the front of a string, character by
character, returning the remainder on success. -/
def dropLit : List Char → List Char → Option (List Char)
  | [], s => some s
  | _ :: _, [] => none
  | l :: ls, c :: cs => if l = c then dropLit ls cs else none

/-- The text captured by a greedy `(\d+)` group: the maximal run of decimal
digits at the front of the remainder. -/
def takeDigits : List Char → List Char
  | [] => []
  | c :: cs => if c.isDigit then c :: takeDigits cs else []

/-- Leftmost unanchored match of a regex of the form `lit(\d+)`, returning
the captured group: the string is scanned left to right, and the first
position where the literal matches and is followed by at least one digit
wins, the group being the maximal digit run there. -/
def findLitDigits (lit : List Char) : List Char → Option (List Char)
  | [] => none
  | c :: cs =>
    match dropLit lit (c :: cs) with
    | some rest =>
      let ds := takeDigits rest
      if ds = [] then findLitDigits lit cs else some ds
    | none => findLitDigits lit cs

/-- The literal part of the first pattern, `vimeo.com/`. -/
def pat1 : List Char := "vimeo.com/".data

/-- The literal part of the second pattern, `vimeo.com/video/`. -/
def pat2 : List Char := "vimeo.com/video/".data

/-- The literal part of the third pattern, `player.vimeo.com/video/`. -/
def pat3 : List Char := "player.vimeo.com/video/".data

/-- `VimeoAPI.extractVideoId`: try the three URL patterns in order and
return the captured digit group of the first that matches anywhere in the
input; otherwise return the input itself when it is purely numeric
(`/^\d+$/`); otherwise `null`. -/
def extractVideoId (url : String) : Option String :=
  match findLitDigits pat1 url.data with
  | some ds => some (String.mk ds)
  | none =>
  match findLitDigits pat2 url.data with
  | some ds => some (String.mk ds)
  | none =>
  match findLitDigits pat3 url.data with
  | some ds => some (String.mk ds)
  | none =>
  if !url.data.isEmpty && url.data.all Char.isDigit then some url else none

/-- Specification-level statement that the unanchored regex `lit(\d+)` has a
match in `s`: somewhere in `s` the literal occurs immediately followed by a
digit. -/
def matchesPat (lit s : List Char) : Prop :=
  ∃ pre c rest, s = pre ++ lit ++ c :: rest ∧ c.isDigit

/-! ### Lemmas about the scan -/

theorem dropLit_append (lit t : List Char) : dropLit lit (lit ++ t) = some t := by
  induction lit with
  | nil => rfl
  | cons l ls ih => simp [dropLit, ih]

theorem dropLit_eq_some {lit s t : List Char} (h : dropLit lit s = some t) :
    s = lit ++ t := by
  induction lit generalizing s with
  | nil => cases s <;> simpa [dropLit] using h
  | cons l ls ih =>
    cases s with
    | nil => simp [dropLit] at h
    | cons c cs =>
      by_cases hc : l = c
      · subst hc
        simp only [dropLit, if_pos rfl] at h
        simpa using ih h
      · simp [dropLit, hc] at h

theorem takeDigits_of_all {d : List Char} (h : ∀ c ∈ d, c.isDigit) :
    takeDigits d = d := by
  induction d with
  | nil => rfl
  | cons c cs ih =>
    simp only [takeDigits, if_pos (h c (List.mem_cons_self c cs))]
    exact congrArg (c :: ·) (ih fun x hx => h x (List.mem_cons_of_mem c hx))

theorem takeDigits_ne_nil {c : Char} {cs : List Char} (h : c.isDigit) :
    takeDigits (c :: cs) ≠ [] := by
  simp [takeDigits, if_pos h]

theorem takeDigits_head {c : Char} {cs : List Char} (h : ¬c.isDigit = true) :
    takeDigits (c :: cs) = [] := by
  simp [takeDigits, h]

/-- A digit string contains no match of a literal that starts with a
non-digit character. -/
theorem findLitDigits_all_digits {l : Char} {ls : List Char}
    (hl : ¬l.isDigit = true) :
    ∀ {d : List Char}, (∀ c ∈ d, c.isDigit) → findLitDigits (l :: ls) d = none := by
  intro d
  induction d with
  | nil => intro _; rfl
  | cons c cs ih =>
    intro hd
    have hc : c.isDigit := hd c (List.mem_cons_self c cs)
    have hne : ¬l = c := fun h => hl (h ▸ hc)
    simp only [findLitDigits, dropLit, if_neg hne]
    exact ih fun x hx => hd x (List.mem_cons_of_mem c hx)

/-- A successful scan exhibits an occurrence of the literal followed by a
digit. -/
theorem matchesPat_of_findLitDigits {lit s ds : List Char}
    (h : findLitDigits lit s = some ds) : matchesPat lit s := by
  induction s with
  | nil => simp [findLitDigits] at h
  | cons c cs ih =>
    rw [findLitDigits] at h
    cases hdrop : dropLit lit (c :: cs) with
    | none =>
      rw [hdrop] at h
      dsimp only at h
      obtain ⟨pre, x, rest, hs, hx⟩ := ih h
      exact ⟨c :: pre, x, rest, by simp [hs], hx⟩
    | some rest =>
      rw [hdrop] at h
      dsimp only at h
      by_cases hds : takeDigits rest = []
      · rw [if_pos hds] at h
        obtain ⟨pre, x, r, hs, hx⟩ := ih h
        exact ⟨c :: pre, x, r, by simp [hs], hx⟩
      · have hrest := dropLit_eq_some hdrop
        cases rest with
        | nil => simp [takeDigits] at hds
        | cons r rs =>
          by_cases hr : r.isDigit
          · exact ⟨[], r, rs, by simpa using hrest, hr⟩
          · exact absurd (takeDigits_head hr) hds

/-- Conversely, an occurrence of the literal followed by a digit makes the
scan succeed. -/
theorem findLitDigits_of_matchesPat {lit s : List Char}
    (h : matchesPat lit s) : findLitDigits lit s ≠ none := by
  obtain ⟨pre, x, rest, hs, hx⟩ := h
  subst hs
  induction pre with
  | nil =>
    rw [List.nil_append]
    cases hlit : lit ++ x :: rest with
    | nil => simp at hlit
    | cons c cs =>
      have hdrop : dropLit lit (c :: cs) = some (x :: rest) := by
        rw [← hlit]; exact dropLit_append lit (x :: rest)
      rw [findLitDigits, hdrop]
      dsimp only
      rw [if_neg (takeDigits_ne_nil hx)]
      simp
  | cons p ps ih =>
    rw [List.cons_append, List.cons_append, findLitDigits]
    cases hdrop : dropLit lit (p :: (ps ++ lit ++ x :: rest)) with
    | none => simpa using ih
    | some rest' =>
      dsimp only
      by_cases hds : takeDigits rest' = []
      · rw [if_pos hds]
        simpa using ih
      · simp [hds]

/-- The scan fails exactly when the pattern has no match. -/
theorem findLitDigits_eq_none_iff {lit s : List Char} :
    findLitDigits lit s = none ↔ ¬matchesPat lit s := by
  constructor
  · intro h hm
    exact findLitDigits_of_matchesPat hm h
  · intro h
    cases hf : findLitDigits lit s with
    | none => rfl
    | some ds => exact absurd (matchesPat_of_findLitDigits hf) h

instance (lit s : List Char) : Decidable (matchesPat lit s) :=
  decidable_of_iff (¬findLitDigits lit s = none)
    (by rw [findLitDigits_eq_none_iff, not_not])

/-! ### The scans evaluated on the three URL shapes -/

theorem findLitDigits_self {lit d : List Char} (hlit : lit ≠ [])
    (hd0 : d ≠ []) (hd : ∀ c ∈ d, c.isDigit) :
    findLitDigits lit (lit ++ d) = some d := by
  have htd : takeDigits d = d := takeDigits_of_all hd
  cases lit with
  | nil => exact absurd rfl hlit
  | cons l ls =>
    have hdrop : dropLit (l :: ls) (l :: (ls ++ d)) = some d :=
      dropLit_append (l :: ls) d
    rw [List.cons_append, findLitDigits, hdrop]
    dsimp only
    rw [htd, if_neg hd0]

theorem findPat1_on_shape2 {d : List Char} (hd : ∀ c ∈ d, c.isDigit) :
    findLitDigits pat1 (pat2 ++ d) = none := by
  have h0 : findLitDigits ('v' :: 'i' :: 'm' :: 'e' :: 'o' :: '.' :: 'c' :: 'o' :: 'm' :: '/' ::[]) d = none :=
    findLitDigits_all_digits (by decide) hd
  show findLitDigits ('v' :: 'i' :: 'm' :: 'e' :: 'o' :: '.' :: 'c' :: 'o' :: 'm' :: '/' ::[])
      ('v' :: 'i' :: 'm' :: 'e' :: 'o' :: '.' :: 'c' :: 'o' :: 'm' :: '/' :: 'v' :: 'i' :: 'd' :: 'e' :: 'o' :: '/' ::d) = none
  simp [findLitDigits, dropLit, takeDigits, h0]

theorem findPat1_on_shape3 {d : List Char} (hd : ∀ c ∈ d, c.isDigit) :
    findLitDigits pat1 (pat3 ++ d) = none := by
  have h0 : findLitDigits ('v' :: 'i' :: 'm' :: 'e' :: 'o' :: '.' :: 'c' :: 'o' :: 'm' :: '/' ::[]) d = none :=
    findLitDigits_all_digits (by decide) hd
  show findLitDigits ('v' :: 'i' :: 'm' :: 'e' :: 'o' :: '.' :: 'c' :: 'o' :: 'm' :: '/' ::[])
      ('p' :: 'l' :: 'a' :: 'y' :: 'e' :: 'r' :: '.' ::
       'v' :: 'i' :: 'm' :: 'e' :: 'o' :: '.' :: 'c' :: 'o' :: 'm' :: '/' :: 'v' :: 'i' :: 'd' :: 'e' :: 'o' :: '/' ::d) = none
  simp [findLitDigits, dropLit, takeDigits, h0]

theorem findPat2_on_shape3 {d : List Char} (hd0 : d ≠ [])
    (hd : ∀ c ∈ d, c.isDigit) :
    findLitDigits pat2 (pat3 ++ d) = some d := by
  have htd : takeDigits d = d := takeDigits_of_all hd
  show findLitDigits
      ('v' :: 'i' :: 'm' :: 'e' :: 'o' :: '.' :: 'c' :: 'o' :: 'm' :: '/' :: 'v' :: 'i' :: 'd' :: 'e' :: 'o' :: '/' ::[])
      ('p' :: 'l' :: 'a' :: 'y' :: 'e' :: 'r' :: '.' ::
       'v' :: 'i' :: 'm' :: 'e' :: 'o' :: '.' :: 'c' :: 'o' :: 'm' :: '/' :: 'v' :: 'i' :: 'd' :: 'e' :: 'o' :: '/' ::d) = some d
  simp [findLitDigits, dropLit, htd, hd0]

/-- On a string in which none of the three patterns has a match and that
is not purely numeric, `extractVideoId` returns `null`. -/
theorem extractVideoId_eq_none (s : String)
    (h1 : ¬matchesPat pat1 s.data) (h2 : ¬matchesPat pat2 s.data)
    (h3 : ¬matchesPat pat3 s.data)
    (h4 : ¬(s.data ≠ [] ∧ ∀ c ∈ s.data, c.isDigit)) :
    extractVideoId s = none := by
  rw [extractVideoId]
  rw [findLitDigits_eq_none_iff.mpr h1, findLitDigits_eq_none_iff.mpr h2,
    findLitDigits_eq_none_iff.mpr h3]
  have : ¬(!s.data.isEmpty && s.data.all Char.isDigit) = true := by
    intro hb
    rw [Bool.and_eq_true, Bool.not_eq_true'] at hb
    refine h4 ⟨?_, List.all_eq_true.mp hb.2⟩
    intro hnil
    rw [hnil] at hb
    exact absurd hb.1 (by decide)
  rw [if_neg this]

/-- C4: `extractVideoId` returns the captured digit group for each of the
three known URL shapes; returns a purely numeric input unchanged; and
returns `null` on any string that matches none of the three patterns and is
not purely numeric. -/
theorem extractVideoId_spec :
    (∀ d : List Char, d ≠ [] → (∀ c ∈ d, c.isDigit) →
      extractVideoId (String.mk (pat1 ++ d)) = some (String.mk d)) ∧
    (∀ d : List Char, d ≠ [] → (∀ c ∈ d, c.isDigit) →
      extractVideoId (String.mk (pat2 ++ d)) = some (String.mk d)) ∧
    (∀ d : List Char, d ≠ [] → (∀ c ∈ d, c.isDigit) →
      extractVideoId (String.mk (pat3 ++ d)) = some (String.mk d)) ∧
    (∀ s : String, s.data ≠ [] → (∀ c ∈ s.data, c.isDigit) →
      extractVideoId s = some s) ∧
    (∀ s : String, ¬matchesPat pat1 s.data → ¬matchesPat pat2 s.data →
      ¬matchesPat pat3 s.data → ¬(s.data ≠ [] ∧ ∀ c ∈ s.data, c.isDigit) →
      extractVideoId s = none) := by
  refine ⟨?_, ?_, ?_, ?_, ?_⟩
  · intro d hd0 hd
    show extractVideoId ⟨pat1 ++ d⟩ = some ⟨d⟩
    rw [extractVideoId]
    rw [show (String.mk (pat1 ++ d)).data = pat1 ++ d from rfl,
      findLitDigits_self (by decide) hd0 hd]
  · intro d hd0 hd
    rw [extractVideoId]
    rw [show (String.mk (pat2 ++ d)).data = pat2 ++ d from rfl,
      findPat1_on_shape2 hd, findLitDigits_self (by decide) hd0 hd]
  · intro d hd0 hd
    rw [extractVideoId]
    rw [show (String.mk (pat3 ++ d)).data = pat3 ++ d from rfl,
      findPat1_on_shape3 hd, findPat2_on_shape3 hd0 hd]
  · intro s hs0 hs
    have e1 : findLitDigits pat1 s.data = none :=
      findLitDigits_all_digits (by decide) hs
    have e2 : findLitDigits pat2 s.data = none :=
      findLitDigits_all_digits (by decide) hs
    have e3 : findLitDigits pat3 s.data = none :=
      findLitDigits_all_digits (by decide) hs
    rw [extractVideoId, e1, e2, e3]
    have h1 : s.data.isEmpty = false := by
      cases hsd : s.data with
      | nil => exact absurd hsd hs0
      | cons c cs => rfl
    have h2 : s.data.all Char.isDigit = true := List.all_eq_true.mpr hs
    rw [h1, h2]
    rfl
  · intro s h1 h2 h3 h4
    exact extractVideoId_eq_none s h1 h2 h3 h4

/-- Witness for C4: the five cases at concrete inputs. -/
theorem extractVideoId_spec_witness :
    extractVideoId "vimeo.com/123" = some "123" ∧
    extractVideoId "vimeo.com/video/456" = some "456" ∧
    extractVideoId "player.vimeo.com/video/789" = some "789" ∧
    extractVideoId "98765" = some "98765" ∧
    extractVideoId "https://example.org/watch" = none := by
  refine ⟨?_, ?_, ?_, ?_, ?_⟩
  · exact extractVideoId_spec.1 "123".data (by decide) (by decide)
  · exact extractVideoId_spec.2.1 "456".data (by decide) (by decide)
  · exact extractVideoId_spec.2.2.1 "789".data (by decide) (by decide)
  · exact extractVideoId_spec.2.2.2.1 "98765" (by decide) (by decide)
  · exact extractVideoId_spec.2.2.2.2 "https://example.org/watch"
      (by decide) (by decide) (by decide) (by decide)

/-! ## JavaScript numbers

An exact model: a finite JavaScript number is a rational, and `NaN` is a
separate marker.  (The model collapses the infinities into the marker as
well; no claim below exercises them.) -/

/-- A JavaScript number. -/
inductive JsNum where
  | nan : JsNum
  | num : ℚ → JsNum
deriving DecidableEq

/-- Truncation toward zero, the integer part JavaScript's `%` is built on. -/
def jsTrunc (q : ℚ) : ℤ := if 0 ≤ q then ⌊q⌋ else ⌈q⌉

/-- JavaScript's remainder operator on finite numbers: the result keeps the
sign of the dividend, `a % n = a - n * trunc(a / n)`. -/
def jsMod (a n : ℚ) : ℚ := a - n * (jsTrunc (a / n) : ℚ)

/-! ## VideoControls.formatTime (controls.js) -/

/-- `String.prototype.padStart(2, '0')`: left-pad with zeros to length 2. -/
def padStart2 (s : String) : String :=
  String.mk (List.replicate (2 - s.length) '0') ++ s

/-- `VideoControls.formatTime`: `NaN` renders as `"0:00"`; otherwise
`h = floor(t/3600)`, `m = floor((t % 3600)/60)`, `s = floor(t % 60)`, and
the hours segment is emitted only when `h > 0`, the other segments being
zero-padded to two digits (minutes only in the hours form). -/
def formatTime : JsNum → String
  | .nan => "0:00"
  | .num t =>
    let h : ℤ := ⌊t / 3600⌋
    let m : ℤ := ⌊jsMod t 3600 / 60⌋
    let s : ℤ := ⌊jsMod t 60⌋
    if 0 < h then
      toString h ++ ":" ++ padStart2 (toString m) ++ ":" ++ padStart2 (toString s)
    else
      toString m ++ ":" ++ padStart2 (toString s)

/-! ### Arithmetic of the clock fields -/

theorem toString_intCast_nat (k : ℕ) : toString (k : ℤ) = toString k := rfl

theorem jsTrunc_of_nonneg {q : ℚ} (h : 0 ≤ q) : jsTrunc q = ⌊q⌋ := if_pos h

theorem floor_div_natCast {q : ℚ} (hq : 0 ≤ q) (k : ℕ) :
    ⌊q / (k : ℚ)⌋ = ((⌊q⌋₊ / k : ℕ) : ℤ) := by
  rw [← Int.natCast_floor_eq_floor (div_nonneg hq (Nat.cast_nonneg k)),
    Nat.floor_div_nat]

theorem floor_jsMod_natCast {q : ℚ} (hq : 0 ≤ q) (k : ℕ) :
    ⌊jsMod q (k : ℚ)⌋ = ((⌊q⌋₊ % k : ℕ) : ℤ) := by
  have hdiv : (0:ℚ) ≤ q / (k : ℚ) := div_nonneg hq (Nat.cast_nonneg k)
  rw [jsMod, jsTrunc_of_nonneg hdiv, floor_div_natCast hq k]
  rw [show (k : ℚ) * (((⌊q⌋₊ / k : ℕ) : ℤ) : ℚ) = (((k * (⌊q⌋₊ / k) : ℕ) : ℤ) : ℚ) by
    push_cast; ring]
  rw [Int.floor_sub_int, ← Int.natCast_floor_eq_floor hq]
  have hmod := Nat.div_add_mod ⌊q⌋₊ k
  have : ((k * (⌊q⌋₊ / k) + ⌊q⌋₊ % k : ℕ) : ℤ) = ((⌊q⌋₊ : ℕ) : ℤ) := by
    rw [hmod]
  push_cast at this ⊢
  linarith

theorem padStart2_length_two {n : ℕ} (h : n < 100) :
    (padStart2 (toString n)).length = 2 := by
  revert h
  revert n
  decide

/-- C5: `formatTime` renders `M:SS` (seconds zero-padded, no hours segment)
for `0 ≤ t < 3600`, `H:MM:SS` (minutes and seconds zero-padded) for
`t ≥ 3600`, and `"0:00"` for `NaN`. -/
theorem formatTime_spec :
    (∀ q : ℚ, 0 ≤ q → q < 3600 →
      formatTime (JsNum.num q) =
        toString (⌊q⌋₊ / 60) ++ ":" ++ padStart2 (toString (⌊q⌋₊ % 60)) ∧
      (padStart2 (toString (⌊q⌋₊ % 60))).length = 2) ∧
    (∀ q : ℚ, 3600 ≤ q →
      formatTime (JsNum.num q) =
        toString (⌊q⌋₊ / 3600) ++ ":" ++
          padStart2 (toString (⌊q⌋₊ % 3600 / 60)) ++ ":" ++
          padStart2 (toString (⌊q⌋₊ % 60)) ∧
      (padStart2 (toString (⌊q⌋₊ % 3600 / 60))).length = 2 ∧
      (padStart2 (toString (⌊q⌋₊ % 60))).length = 2) ∧
    formatTime JsNum.nan = "0:00" := by
  have h3600 : (3600 : ℚ) = ((3600 : ℕ) : ℚ) := by norm_num
  have h60 : (60 : ℚ) = ((60 : ℕ) : ℚ) := by norm_num
  refine ⟨?_, ?_, rfl⟩
  · intro q hq0 hqlt
    have hn : ⌊q⌋₊ < 3600 := (Nat.floor_lt hq0).mpr (by exact_mod_cast hqlt)
    have hdiv3600 : (0:ℚ) ≤ q / 3600 := by positivity
    have hh : ⌊q / (3600:ℚ)⌋ = 0 := by
      rw [h3600, floor_div_natCast hq0 3600, Nat.div_eq_of_lt hn]
      rfl
    have hmod3600 : jsMod q 3600 = q := by
      rw [jsMod, jsTrunc_of_nonneg hdiv3600, hh]
      push_cast
      ring
    have hm : ⌊jsMod q 3600 / 60⌋ = ((⌊q⌋₊ / 60 : ℕ) : ℤ) := by
      rw [hmod3600, h60, floor_div_natCast hq0 60]
    have hs : ⌊jsMod q 60⌋ = ((⌊q⌋₊ % 60 : ℕ) : ℤ) := by
      rw [h60, floor_jsMod_natCast hq0 60]
    refine ⟨?_, padStart2_length_two (by omega)⟩
    rw [formatTime]
    rw [hh, hm, hs, if_neg (lt_irrefl 0), toString_intCast_nat, toString_intCast_nat]
  · intro q hq36
    have hq0 : (0:ℚ) ≤ q := le_trans (by norm_num) hq36
    have hn : 3600 ≤ ⌊q⌋₊ := Nat.le_floor (by exact_mod_cast hq36)
    have hdiv3600 : (0:ℚ) ≤ q / 3600 := by positivity
    have hh : ⌊q / (3600:ℚ)⌋ = ((⌊q⌋₊ / 3600 : ℕ) : ℤ) := by
      rw [h3600, floor_div_natCast hq0 3600]
    have hhpos : (0:ℤ) < ((⌊q⌋₊ / 3600 : ℕ) : ℤ) := by
      have : 1 ≤ ⌊q⌋₊ / 3600 := (Nat.one_le_div_iff (by norm_num)).mpr hn
      exact_mod_cast this
    have hmod3600 : jsMod q 3600 = q - ((3600 * (⌊q⌋₊ / 3600) : ℕ) : ℚ) := by
      rw [jsMod, jsTrunc_of_nonneg hdiv3600, hh, Int.cast_natCast]
      push_cast
      ring
    have hm : ⌊jsMod q 3600 / 60⌋ = ((⌊q⌋₊ % 3600 / 60 : ℕ) : ℤ) := by
      rw [hmod3600]
      rw [show (q - ((3600 * (⌊q⌋₊ / 3600) : ℕ) : ℚ)) / 60 =
          q / 60 - (((60 * (⌊q⌋₊ / 3600) : ℕ) : ℤ) : ℚ) by
        rw [Int.cast_natCast]; push_cast; ring]
      rw [Int.floor_sub_int, h60, floor_div_natCast hq0 60]
      omega
    have hs : ⌊jsMod q 60⌋ = ((⌊q⌋₊ % 60 : ℕ) : ℤ) := by
      rw [h60, floor_jsMod_natCast hq0 60]
    refine ⟨?_, padStart2_length_two (by omega), padStart2_length_two (by omega)⟩
    rw [formatTime]
    rw [hh, hm, hs, if_pos hhpos, toString_intCast_nat, toString_intCast_nat,
      toString_intCast_nat]

/-- Witness for C5: concrete times in each regime. -/
theorem formatTime_spec_witness :
    formatTime (JsNum.num 125) = "2:05" ∧
    formatTime (JsNum.num 3725) = "1:02:05" ∧
    formatTime JsNum.nan = "0:00" := by
  have hfloor125 : ⌊(125 : ℚ)⌋₊ = 125 := by
    rw [show (125:ℚ) = ((125:ℕ):ℚ) by norm_num, Nat.floor_natCast]
  have hfloor3725 : ⌊(3725 : ℚ)⌋₊ = 3725 := by
    rw [show (3725:ℚ) = ((3725:ℕ):ℚ) by norm_num, Nat.floor_natCast]
  refine ⟨?_, ?_, formatTime_spec.2.2⟩
  · have h := (formatTime_spec.1 125 (by norm_num) (by norm_num)).1
    rw [hfloor125] at h
    exact h
  · have h := (formatTime_spec.2.1 3725 (by norm_num)).1
    rw [hfloor3725] at h
    exact h

/-! ## The HLSPlayer listener registry (player.js)

`this.listeners` is a JavaScript object literal keyed by the six event
names.  Property access `this.listeners[event]` follows the language's
lookup order: own properties first, then the properties inherited from
`Object.prototype` — all of which are truthy non-arrays.  `on`, `off` and
`emit` guard with `if (this.listeners[event])`, so an inherited property
passes the guard and the subsequent `.push`/`.filter`/`.forEach` throws a
`TypeError`; the three operations are therefore modelled in `Except`. -/

/-- Callbacks are identified abstractly. -/
abbrev Callback := ℕ

/-- The own properties of the registry object: an association list from
event name to the callback array stored under it. -/
abbrev Registry := List (String × List Callback)

/-- Property names inherited from `Object.prototype` (the ECMAScript-
mandated methods plus the Annex B accessors); each evaluates to a truthy
non-array value. -/
def objectProtoKeys : List String :=
  ["constructor", "hasOwnProperty", "isPrototypeOf", "propertyIsEnumerable",
   "toLocaleString", "toString", "valueOf", "__proto__",
   "__defineGetter__", "__defineSetter__", "__lookupGetter__", "__lookupSetter__"]

/-- What the property access `this.listeners[event]` evaluates to. -/
inductive PropVal where
  | undefinedVal : PropVal
  | arrayVal : List Callback → PropVal
  | inherited : PropVal
deriving DecidableEq

/-- Own-keys-first property lookup with `Object.prototype` fallback. -/
def propGet (o : Registry) (k : String) : PropVal :=
  match o.find? (fun p => p.1 == k) with
  | some p => .arrayVal p.2
  | none => if k ∈ objectProtoKeys then .inherited else .undefinedVal

/-- Replace the callback array stored under an own key. -/
def setOwn (o : Registry) (k : String) (v : List Callback) : Registry :=
  o.map (fun p => if p.1 == k then (p.1, v) else p)

/-- The registry built in the `HLSPlayer` constructor: the six events. -/
def freshListeners : Registry :=
  [("play", []), ("pause", []), ("ended", []), ("timeupdate", []),
   ("loadedmetadata", []), ("error", [])]

namespace HLSPlayer

/-- `HLSPlayer.on`: `if (this.listeners[event]) this.listeners[event].push(callback)`. -/
def onEvent (o : Registry) (event : String) (cb : Callback) : Except Unit Registry :=
  match propGet o event with
  | .arrayVal cs => .ok (setOwn o event (cs ++ [cb]))
  | .inherited => .error ()
  | .undefinedVal => .ok o

/-- `HLSPlayer.off`: guarded `filter(cb => cb !== callback)` reassignment. -/
def off (o : Registry) (event : String) (cb : Callback) : Except Unit Registry :=
  match propGet o event with
  | .arrayVal cs => .ok (setOwn o event (cs.filter (fun c => c ≠ cb)))
  | .inherited => .error ()
  | .undefinedVal => .ok o

/-- `HLSPlayer.emit`: guarded `forEach(callback => callback(data))`;
returns the callbacks invoked, in order. -/
def emit (o : Registry) (event : String) : Except Unit (List Callback) :=
  match propGet o event with
  | .arrayVal cs => .ok cs
  | .inherited => .error ()
  | .undefinedVal => .ok []

end HLSPlayer

/-! ## The HLSPlayer adapter state and operations (player.js) -/

/-- The slice of the native media element the player reads and writes. -/
structure MediaElement where
  src : String
  volume : ℚ
  muted : Bool
  currentTime : ℚ
  duration : JsNum
  paused : Bool
deriving DecidableEq

/-- An `HLSPlayer` instance: its media element, whether an hls.js engine
instance is currently attached (`this.hls !== null`), and the listener
registry. -/
structure AdapterState where
  video : MediaElement
  hls : Bool
  listeners : Registry
deriving DecidableEq

/-- Calls the adapter can make into hls.js. -/
inductive EngineCall where
  | create : EngineCall
  | loadSrc : String → EngineCall
  | attachMedia : EngineCall
  | startLoad : EngineCall
  | recoverMediaError : EngineCall
  | destroyEngine : EngineCall
deriving DecidableEq

namespace HLSPlayer

/-- `HLSPlayer.destroy`: release the engine when one is attached, clear the
media source, and replace the listener registry with a fresh empty object
(`this.listeners = {}`: no own keys). -/
def destroy (st : AdapterState) : AdapterState × List EngineCall :=
  ({ video := { st.video with src := "" }, hls := false, listeners := [] },
   if st.hls then [EngineCall.destroyEngine] else [])

/-- The `Hls.Events.ERROR` callback installed by `loadSource`: on a fatal
error, switch on the error class — network restarts the load, media calls
the engine recovery, anything else destroys the player — then in every
case `emit('error', data)` on the registry as it stands after the switch.
Returns the state, the engine calls made, and the callbacks invoked by the
emit. -/
def handleHlsError (st : AdapterState) (fatal : Bool)
    (errType : String) :
    Except Unit (AdapterState × List EngineCall × List Callback) :=
  let stepped :=
    if fatal then
      if errType = "networkError" then (st, [EngineCall.startLoad])
      else if errType = "mediaError" then (st, [EngineCall.recoverMediaError])
      else destroy st
    else (st, [])
  match emit stepped.1.listeners "error" with
  | .ok cs => .ok (stepped.1, stepped.2, cs)
  | .error e => .error e

/-- `HLSPlayer.loadSource`: a falsy url is rejected with only a console
message; otherwise, when hls.js reports support, an engine is created,
pointed at the url and attached to the media element; failing that, native
HLS support assigns the url to the element's `src`; failing both, an
`error` event is emitted. -/
def loadSource (st : AdapterState) (url : Option String)
    (hlsSupported nativeHls : Bool) :
    Except Unit (AdapterState × List EngineCall × List Callback) :=
  if url = none ∨ url = some "" then .ok (st, [], [])
  else
    let u := url.getD ""
    if hlsSupported then
      .ok ({ st with hls := true },
        [EngineCall.create, EngineCall.loadSrc u, EngineCall.attachMedia], [])
    else if nativeHls then
      .ok ({ st with video := { st.video with src := u } }, [], [])
    else
      match emit st.listeners "error" with
      | .ok cs => .ok (st, [], cs)
      | .error e => .error e

/-- `HLSPlayer.setVolume`: `this.video.volume = Math.max(0, Math.min(1, volume))`. -/
def setVolume (st : AdapterState) (volume : ℚ) : AdapterState :=
  { st with video := { st.video with volume := max 0 (min 1 volume) } }

/-- `HLSPlayer.getVolume`. -/
def getVolume (st : AdapterState) : ℚ := st.video.volume

/-- `HLSPlayer.toggleMute`: flip and return the muted flag. -/
def toggleMute (st : AdapterState) : AdapterState × Bool :=
  ({ st with video := { st.video with muted := !st.video.muted } }, !st.video.muted)

/-- `HLSPlayer.seek`. -/
def seek (st : AdapterState) (time : ℚ) : AdapterState :=
  { st with video := { st.video with currentTime := time } }

/-- `HLSPlayer.getCurrentTime`. -/
def getCurrentTime (st : AdapterState) : ℚ := st.video.currentTime

/-- `HLSPlayer.getDuration`. -/
def getDuration (st : AdapterState) : JsNum := st.video.duration

/-- `HLSPlayer.play`: awaits `video.play()`; a rejection is caught and
re-emitted as an `error` event.  The oracle argument says whether the
browser accepted the play call. -/
def play (st : AdapterState) (playAccepted : Bool) :
    Except Unit (AdapterState × List Callback) :=
  if playAccepted then
    .ok ({ st with video := { st.video with paused := false } }, [])
  else
    match emit st.listeners "error" with
    | .ok cs => .ok (st, cs)
    | .error e => .error e

/-- `HLSPlayer.pause`. -/
def pause (st : AdapterState) : AdapterState :=
  { st with video := { st.video with paused := true } }

/-- `HLSPlayer.togglePlay`. -/
def togglePlay (st : AdapterState) (playAccepted : Bool) :
    Except Unit (AdapterState × List Callback) :=
  if st.video.paused then play st playAccepted
  else .ok (pause st, [])

end HLSPlayer

/-- A concrete media element, for witnesses. -/
def sampleVideo : MediaElement :=
  { src := "", volume := 1, muted := false, currentTime := 0,
    duration := JsNum.nan, paused := true }

/-- A concrete freshly constructed adapter, for witnesses. -/
def sampleAdapter : AdapterState :=
  { video := sampleVideo, hls := false, listeners := freshListeners }

/-! ## Claims about the adapter -/

/-- C7: after `setVolume(v)` the media element's volume is `v` clamped to
`[0,1]`: `0` when `v < 0`, `1` when `v > 1`, and `v` itself otherwise. -/
theorem setVolume_clamps (st : AdapterState) (v : ℚ) :
    (v < 0 → (HLSPlayer.setVolume st v).video.volume = 0) ∧
    (1 < v → (HLSPlayer.setVolume st v).video.volume = 1) ∧
    (0 ≤ v → v ≤ 1 → (HLSPlayer.setVolume st v).video.volume = v) := by
  refine ⟨?_, ?_, ?_⟩ <;> intro h
  · show max 0 (min 1 v) = 0
    rw [min_eq_right (le_of_lt (lt_of_lt_of_le h zero_le_one)),
      max_eq_left (le_of_lt h)]
  · show max 0 (min 1 v) = 1
    rw [min_eq_left (le_of_lt h), max_eq_right zero_le_one]
  · intro h1
    show max 0 (min 1 v) = v
    rw [min_eq_right h1, max_eq_right h]

/-- Witness for C7: `setVolume(-1)` yields `0` and `setVolume(2)` yields
`1` on a concrete player. -/
theorem setVolume_clamps_witness :
    (HLSPlayer.setVolume sampleAdapter (-1)).video.volume = 0 ∧
    (HLSPlayer.setVolume sampleAdapter 2).video.volume = 1 ∧
    (HLSPlayer.setVolume sampleAdapter (1/2)).video.volume = 1/2 :=
  ⟨(setVolume_clamps sampleAdapter (-1)).1 (by norm_num),
   (setVolume_clamps sampleAdapter 2).2.1 (by norm_num),
   (setVolume_clamps sampleAdapter (1/2)).2.2 (by norm_num) (by norm_num)⟩

/-- C9 (amended): for an event name that is neither one of the six
registry keys nor a property name inherited from `Object.prototype`,
`on`, `off` and `emit` are silent no-ops: the registry is unchanged, no
callback is invoked, and nothing is thrown. -/
theorem unknown_event_noop (event : String) (cb : Callback)
    (h6 : event ∉ ["play", "pause", "ended", "timeupdate", "loadedmetadata", "error"])
    (hp : event ∉ objectProtoKeys) :
    HLSPlayer.onEvent freshListeners event cb = .ok freshListeners ∧
    HLSPlayer.off freshListeners event cb = .ok freshListeners ∧
    HLSPlayer.emit freshListeners event = .ok [] := by
  have hne : ∀ k : String,
      k ∈ ["play", "pause", "ended", "timeupdate", "loadedmetadata", "error"] →
      (k == event) = false := by
    intro k hk
    refine Bool.not_eq_true _ ▸ ?_
    intro hbeq
    exact h6 ((eq_of_beq hbeq) ▸ hk)
  have hfind : freshListeners.find? (fun p => p.1 == event) = none := by
    show List.find? (fun p => p.1 == event)
      [("play", []), ("pause", []), ("ended", []), ("timeupdate", []),
       ("loadedmetadata", []), ("error", [])] = none
    simp [List.find?, hne "play" (by decide), hne "pause" (by decide),
      hne "ended" (by decide), hne "timeupdate" (by decide),
      hne "loadedmetadata" (by decide), hne "error" (by decide)]
  have hprop : propGet freshListeners event = .undefinedVal := by
    rw [propGet, hfind, if_neg hp]
  exact ⟨by rw [HLSPlayer.onEvent, hprop], by rw [HLSPlayer.off, hprop],
    by rw [HLSPlayer.emit, hprop]⟩

/-- Witness for C9's amended theorem at a concrete unknown event name. -/
theorem unknown_event_noop_witness :
    HLSPlayer.onEvent freshListeners "seeking" 0 = .ok freshListeners ∧
    HLSPlayer.off freshListeners "seeking" 0 = .ok freshListeners ∧
    HLSPlayer.emit freshListeners "seeking" = .ok [] :=
  unknown_event_noop "seeking" 0 (by decide) (by decide)

/-- C9 counterexample: `"toString"` is not one of the six registry keys,
yet `on`/`off`/`emit` on it are not silent no-ops — the lookup finds the
truthy inherited `Object.prototype.toString`, and the guarded
`.push`/`.filter`/`.forEach` throws a `TypeError`. -/
theorem on_toString_raises :
    "toString" ∉ ["play", "pause", "ended", "timeupdate", "loadedmetadata", "error"] ∧
    HLSPlayer.onEvent freshListeners "toString" 0 = .error () ∧
    HLSPlayer.off freshListeners "toString" 0 = .error () ∧
    HLSPlayer.emit freshListeners "toString" = .error () :=
  ⟨by decide, rfl, rfl, rfl⟩

/-- C10: a falsy url (`null`/`undefined`/empty string) makes `loadSource`
return immediately: the state is unchanged, no engine is created, no call
to the engine is made, and no `error` event is emitted. -/
theorem loadSource_falsy (st : AdapterState) (url : Option String)
    (hlsSupported nativeHls : Bool) (h : url = none ∨ url = some "") :
    HLSPlayer.loadSource st url hlsSupported nativeHls = .ok (st, [], []) := by
  rw [HLSPlayer.loadSource, if_pos h]

/-- Witness for C10 at the three falsy urls on a concrete player. -/
theorem loadSource_falsy_witness :
    HLSPlayer.loadSource sampleAdapter none true false = .ok (sampleAdapter, [], []) ∧
    HLSPlayer.loadSource sampleAdapter (some "") false true = .ok (sampleAdapter, [], []) :=
  ⟨loadSource_falsy sampleAdapter none true false (Or.inl rfl),
   loadSource_falsy sampleAdapter (some "") false true (Or.inr rfl)⟩

/-- C1 (amended): for engine-reported fatal errors, the network class
restarts the load and forwards the error to the registered listeners; the
media class calls the engine recovery and forwards; any other fatal class
destroys the player — engine released, source cleared, registry cleared —
and the subsequent emit therefore reaches no listener: the error is NOT
forwarded to the previously registered listeners.  Non-fatal errors are
forwarded with no recovery action.  No other recovery action is taken. -/
theorem handleHlsError_policy (st : AdapterState) (cbs : List Callback)
    (h : propGet st.listeners "error" = .arrayVal cbs) :
    HLSPlayer.handleHlsError st true "networkError" =
      .ok (st, [EngineCall.startLoad], cbs) ∧
    HLSPlayer.handleHlsError st true "mediaError" =
      .ok (st, [EngineCall.recoverMediaError], cbs) ∧
    (∀ ty : String, ty ≠ "networkError" → ty ≠ "mediaError" →
      HLSPlayer.handleHlsError st true ty =
        .ok ({ video := { st.video with src := "" }, hls := false, listeners := [] },
             (if st.hls then [EngineCall.destroyEngine] else []), [])) ∧
    (∀ ty : String, HLSPlayer.handleHlsError st false ty = .ok (st, [], cbs)) := by
  have hemit : HLSPlayer.emit st.listeners "error" = .ok cbs := by
    rw [HLSPlayer.emit, h]
  have hemitNil : HLSPlayer.emit ([] : Registry) "error" = .ok [] := rfl
  refine ⟨?_, ?_, ?_, ?_⟩
  · rw [HLSPlayer.handleHlsError]
    simp only [if_pos rfl, if_true]
    rw [hemit]
  · rw [HLSPlayer.handleHlsError]
    simp only [if_true, if_neg (by decide : ¬("mediaError" : String) = "networkError"),
      if_pos rfl]
    rw [hemit]
  · intro ty h1 h2
    rw [HLSPlayer.handleHlsError]
    simp only [if_true, if_neg h1, if_neg h2]
    rw [show (HLSPlayer.destroy st).1.listeners = [] from rfl, hemitNil]
    rfl
  · intro ty
    rw [HLSPlayer.handleHlsError]
    simp only [if_false, Bool.false_eq_true]
    rw [hemit]

/-- Witness for C1's amended theorem on a concrete player with one
registered error listener. -/
theorem handleHlsError_policy_witness :
    HLSPlayer.handleHlsError
      { video := sampleVideo, hls := true,
        listeners := [("play", []), ("pause", []), ("ended", []),
          ("timeupdate", []), ("loadedmetadata", []), ("error", [7])] }
      true "networkError" =
      .ok ({ video := sampleVideo, hls := true,
             listeners := [("play", []), ("pause", []), ("ended", []),
               ("timeupdate", []), ("loadedmetadata", []), ("error", [7])] },
           [EngineCall.startLoad], [7]) :=
  (handleHlsError_policy
    { video := sampleVideo, hls := true,
      listeners := [("play", []), ("pause", []), ("ended", []),
        ("timeupdate", []), ("loadedmetadata", []), ("error", [7])] }
    [7] rfl).1

/-- C1 counterexample: on a fatal error of a class other than network or
media (here hls.js's `muxError`), the error is NOT forwarded to the
registered `error` listener — `destroy()` replaced the registry before
`emit` ran, so the emit invoked nothing, although listener `7` was
registered. -/
theorem handleHlsError_other_not_forwarded :
    propGet [("play", []), ("pause", []), ("ended", []), ("timeupdate", []),
        ("loadedmetadata", []), ("error", [7])] "error" = .arrayVal [7] ∧
    HLSPlayer.handleHlsError
      { video := { src := "s", volume := 1, muted := false, currentTime := 0,
                   duration := JsNum.nan, paused := false },
        hls := true,
        listeners := [("play", []), ("pause", []), ("ended", []),
          ("timeupdate", []), ("loadedmetadata", []), ("error", [7])] }
      true "muxError" =
      .ok ({ video := { src := "", volume := 1, muted := false, currentTime := 0,
                        duration := JsNum.nan, paused := false },
             hls := false, listeners := [] },
           [EngineCall.destroyEngine], []) :=
  ⟨rfl, rfl⟩

/-! ## The VideoControls overlay and the VimeoHLSPlayer facade -/

/-- The slice of `VideoControls` that `destroy` touches: whether the
injected control element is attached, and whether an auto-hide timer is
pending. -/
structure ControlsState where
  domAttached : Bool
  hideTimerPending : Bool
deriving DecidableEq

namespace VideoControls

/-- `VideoControls.destroy`: remove the injected control element and
cancel a pending auto-hide timer (`stopAutoHide`). -/
def destroy (_c : ControlsState) : ControlsState :=
  { domAttached := false, hideTimerPending := false }

end VideoControls

/-- A `VimeoHLSPlayer` facade instance: the optional control overlay
(present when `options.controls` was set), the adapter, whether the
created video element is attached to the container, and whether the
container carries the `vimeo-hls-player` marker class. -/
structure FacadeState where
  controls : Option ControlsState
  player : AdapterState
  videoAttached : Bool
  containerMarked : Bool
deriving DecidableEq

namespace VimeoHLSPlayer

/-- `VimeoHLSPlayer.destroy` (index.js): destroy the overlay when present,
destroy the adapter, remove the video element from the container, and drop
the marker class.  The second component records the engine calls made. -/
def destroy (s : FacadeState) : FacadeState × List EngineCall :=
  ({ controls := s.controls.map VideoControls.destroy,
     player := (HLSPlayer.destroy s.player).1,
     videoAttached := false, containerMarked := false },
   (HLSPlayer.destroy s.player).2)

end VimeoHLSPlayer

/-- A concrete facade with overlay and an attached engine, for witnesses. -/
def sampleFacade : FacadeState :=
  { controls := some { domAttached := true, hideTimerPending := false },
    player := { video := sampleVideo, hls := true, listeners := freshListeners },
    videoAttached := true, containerMarked := true }

/-- C2 (amended): `destroy()` releases the engine, clears the media
source, empties the listener registry, removes the control DOM and the
video element; it is safe without a prior `loadSource` (no engine call is
made when no engine was attached) and idempotent (a second `destroy`
reaches the same state and touches no engine).  Afterwards the public
playback methods do not raise — `play`/`togglePlay` for either browser
outcome, and `on`/`off`/`emit` for every event name that is not an
`Object.prototype` property name (for those inherited names they throw a
`TypeError`, before `destroy` as well as after). -/
theorem destroy_spec (s : FacadeState) :
    (VimeoHLSPlayer.destroy s).1.player.hls = false ∧
    (VimeoHLSPlayer.destroy s).1.player.video.src = "" ∧
    (VimeoHLSPlayer.destroy s).1.player.listeners = [] ∧
    (VimeoHLSPlayer.destroy s).1.videoAttached = false ∧
    (VimeoHLSPlayer.destroy s).1.containerMarked = false ∧
    (s.controls = none → (VimeoHLSPlayer.destroy s).1.controls = none) ∧
    (∀ c, s.controls = some c → (VimeoHLSPlayer.destroy s).1.controls =
      some { domAttached := false, hideTimerPending := false }) ∧
    (s.player.hls = false → (VimeoHLSPlayer.destroy s).2 = []) ∧
    (s.player.hls = true → (VimeoHLSPlayer.destroy s).2 = [EngineCall.destroyEngine]) ∧
    VimeoHLSPlayer.destroy (VimeoHLSPlayer.destroy s).1 =
      ((VimeoHLSPlayer.destroy s).1, []) ∧
    (∀ acc, ∃ r, HLSPlayer.play (VimeoHLSPlayer.destroy s).1.player acc = .ok r) ∧
    (∀ acc, ∃ r, HLSPlayer.togglePlay (VimeoHLSPlayer.destroy s).1.player acc = .ok r) ∧
    (∀ event : String, ∀ cb : Callback, event ∉ objectProtoKeys →
      HLSPlayer.onEvent (VimeoHLSPlayer.destroy s).1.player.listeners event cb =
        .ok (VimeoHLSPlayer.destroy s).1.player.listeners ∧
      HLSPlayer.off (VimeoHLSPlayer.destroy s).1.player.listeners event cb =
        .ok (VimeoHLSPlayer.destroy s).1.player.listeners ∧
      HLSPlayer.emit (VimeoHLSPlayer.destroy s).1.player.listeners event = .ok []) := by
  have hprop : ∀ event : String, event ∉ objectProtoKeys →
      propGet ([] : Registry) event = .undefinedVal := by
    intro event hp
    rw [propGet]
    show (if event ∈ objectProtoKeys then PropVal.inherited else PropVal.undefinedVal) = .undefinedVal
    rw [if_neg hp]
  refine ⟨rfl, rfl, rfl, rfl, rfl, ?_, ?_, ?_, ?_, ?_, ?_, ?_, ?_⟩
  · intro h
    show (s.controls.map VideoControls.destroy) = none
    rw [h]
    rfl
  · intro c h
    show (s.controls.map VideoControls.destroy) = some _
    rw [h]
    rfl
  · intro h
    show (if s.player.hls then [EngineCall.destroyEngine] else []) = []
    rw [h]
    rfl
  · intro h
    show (if s.player.hls then [EngineCall.destroyEngine] else []) = [EngineCall.destroyEngine]
    rw [h]
    rfl
  · cases hc : s.controls with
    | none =>
      show VimeoHLSPlayer.destroy _ = _
      rw [VimeoHLSPlayer.destroy, VimeoHLSPlayer.destroy, hc]
      rfl
    | some c =>
      show VimeoHLSPlayer.destroy _ = _
      rw [VimeoHLSPlayer.destroy, VimeoHLSPlayer.destroy, hc]
      rfl
  · intro acc
    cases acc with
    | true => exact ⟨_, rfl⟩
    | false => exact ⟨_, rfl⟩
  · intro acc
    cases hpaused : s.player.video.paused with
    | true =>
      cases acc with
      | true =>
        refine ⟨({ (VimeoHLSPlayer.destroy s).1.player with
          video := { (VimeoHLSPlayer.destroy s).1.player.video with
            paused := false } }, []), ?_⟩
        rw [HLSPlayer.togglePlay,
          show (VimeoHLSPlayer.destroy s).1.player.video.paused = true from hpaused]
        rfl
      | false =>
        refine ⟨((VimeoHLSPlayer.destroy s).1.player, []), ?_⟩
        rw [HLSPlayer.togglePlay,
          show (VimeoHLSPlayer.destroy s).1.player.video.paused = true from hpaused]
        rfl
    | false =>
      refine ⟨(HLSPlayer.pause (VimeoHLSPlayer.destroy s).1.player, []), ?_⟩
      rw [HLSPlayer.togglePlay,
        show (VimeoHLSPlayer.destroy s).1.player.video.paused = false from hpaused]
      rfl
  · intro event cb hp
    have h : propGet (VimeoHLSPlayer.destroy s).1.player.listeners event =
        PropVal.undefinedVal := hprop event hp
    exact ⟨by rw [HLSPlayer.onEvent, h], by rw [HLSPlayer.off, h],
      by rw [HLSPlayer.emit, h]⟩

/-- Witness for C2 on a concrete facade with an engine and an overlay. -/
theorem destroy_spec_witness :
    (VimeoHLSPlayer.destroy sampleFacade).1.player.hls = false ∧
    (VimeoHLSPlayer.destroy sampleFacade).2 = [EngineCall.destroyEngine] ∧
    (∃ r, HLSPlayer.play (VimeoHLSPlayer.destroy sampleFacade).1.player false = .ok r) ∧
    HLSPlayer.onEvent (VimeoHLSPlayer.destroy sampleFacade).1.player.listeners "play" 0 =
      .ok (VimeoHLSPlayer.destroy sampleFacade).1.player.listeners :=
  ⟨(destroy_spec sampleFacade).1,
   (destroy_spec sampleFacade).2.2.2.2.2.2.2.2.1 rfl,
   (destroy_spec sampleFacade).2.2.2.2.2.2.2.2.2.2.1 false,
   ((destroy_spec sampleFacade).2.2.2.2.2.2.2.2.2.2.2.2 "play" 0 (by decide)).1⟩

/-- C2 counterexample: after `destroy()` the public `on` method still
throws a `TypeError` when called with an event name inherited from
`Object.prototype`, such as `"toString"` — so not every call of the
public methods is raise-free. -/
theorem destroy_then_on_toString_raises :
    HLSPlayer.onEvent (VimeoHLSPlayer.destroy sampleFacade).1.player.listeners
      "toString" 0 = .error () := rfl

/-! ## setupContainer: the aspect-ratio box (index.js) -/

/-- The decimal value of a digit string. -/
def digitsToNat (s : List Char) : ℕ :=
  s.foldl (fun n c => 10 * n + (c.toNat - '0'.toNat)) 0

/-- `Number(s)`, modelled on the inputs `setupContainer` feeds it: the
empty string is `0`, a digit string is its decimal value, anything else is
the non-finite marker (the model does not cover fractional or signed
literals, which no claim exercises). -/
def jsNumber (s : List Char) : JsNum :=
  if s.isEmpty then .num 0
  else if s.all Char.isDigit then .num (digitsToNat s)
  else .nan

/-- Division of JavaScript numbers (a zero divisor, an infinity or `NaN`
in JavaScript, is collapsed into the non-finite marker). -/
def jsDiv : JsNum → JsNum → JsNum
  | .num a, .num b => if b = 0 then .nan else .num (a / b)
  | _, _ => .nan

/-- Multiplication of JavaScript numbers. -/
def jsMul : JsNum → JsNum → JsNum
  | .num a, .num b => .num (a * b)
  | _, _ => .nan

/-- The padding-top computation of `VimeoHLSPlayer.setupContainer`:
`const [width, height] = this.options.aspectRatio.split(':').map(Number)`
then `(height / width) * 100`.  A missing destructured element is
`undefined`, whose arithmetic is `NaN`. -/
def setupPaddingTop (aspectRatio : String) : JsNum :=
  let parts := aspectRatio.data.splitOn ':'
  let width := match parts[0]? with
    | some p => jsNumber p
    | none => JsNum.nan
  let height := match parts[1]? with
    | some p => jsNumber p
    | none => JsNum.nan
  jsMul (jsDiv height width) (.num 100)

/-- C8: for an aspect-ratio string `"W:H"` with numeric `W` and `H`
(`W ≠ 0`, so that the quotient denotes), the computed padding-top
percentage is exactly `H/W*100`. -/
theorem setupPaddingTop_spec (w h : List Char)
    (hw0 : w ≠ []) (hw : ∀ c ∈ w, c.isDigit) (hwz : digitsToNat w ≠ 0)
    (hh0 : h ≠ []) (hh : ∀ c ∈ h, c.isDigit) :
    setupPaddingTop (String.mk (w ++ ':' :: h)) =
      .num ((digitsToNat h : ℚ) / (digitsToNat w : ℚ) * 100) := by
  have hwc : ∀ x ∈ w, ¬((x == ':') = true) := by
    intro x hx hc
    exact absurd (hw x hx) (by rw [eq_of_beq hc]; decide)
  have hhc : ∀ x ∈ h, ¬((x == ':') = true) := by
    intro x hx hc
    exact absurd (hh x hx) (by rw [eq_of_beq hc]; decide)
  have hsplit : (w ++ ':' :: h).splitOn ':' = [w, h] := by
    rw [List.splitOn,
      List.splitOnP_first (fun x => x == ':') w hwc ':' rfl h,
      List.splitOnP_eq_single (fun x => x == ':') h hhc]
  rw [setupPaddingTop]
  rw [show (String.mk (w ++ ':' :: h)).data = w ++ ':' :: h from rfl, hsplit]
  have hwnum : jsNumber w = .num (digitsToNat w) := by
    rw [jsNumber, if_neg (by simpa using hw0), if_pos (List.all_eq_true.mpr hw)]
  have hhnum : jsNumber h = .num (digitsToNat h) := by
    rw [jsNumber, if_neg (by simpa using hh0), if_pos (List.all_eq_true.mpr hh)]
  show jsMul (jsDiv (jsNumber h) (jsNumber w)) (.num 100) = _
  rw [hwnum, hhnum, jsDiv, if_neg (by exact_mod_cast hwz)]
  rfl

/-- Witness for C8: `"16:9"` yields `9/16*100 = 56.25`. -/
theorem setupPaddingTop_spec_witness :
    setupPaddingTop "16:9" = JsNum.num ((9 : ℚ) / 16 * 100) ∧
    ((9 : ℚ) / 16 * 100) = 56.25 := by
  constructor
  · have h := setupPaddingTop_spec "16".data "9".data (by decide) (by decide)
      (by decide) (by decide) (by decide)
    have e9 : digitsToNat "9".data = 9 := rfl
    have e16 : digitsToNat "16".data = 16 := rfl
    rw [e9, e16] at h
    rw [show ((9 : ℕ) : ℚ) = 9 by norm_num, show ((16 : ℕ) : ℚ) = 16 by norm_num] at h
    exact h
  · norm_num

/-! ## loadVimeo and showError (index.js)

The two network calls are passed in as oracles: `playerFetch` models
`VimeoAPI.getHLSFromPlayer` (resolves to an HLS url, or throws with a
message), and `apiFetch` models `VimeoAPI.getVideoData` (resolves to video
data whose `hlsUrl` field may be absent, or throws).  The result record
collects the observable effects of a call: the identifiers each network
path fetched, the urls handed to `loadHLS` → `player.loadSource`, and the
error panel rendered by `showError`.  `loadVimeo` returns the record
plainly — the outer `try`/`catch` converts every failure into a rendered
panel, and nothing propagates to the caller. -/

/-- Observable effects of one `loadVimeo` call. -/
structure VimeoLoadResult where
  playerFetches : List String
  apiFetches : List String
  loadSourceCalls : List String
  errorPanel : Option (String × String)
deriving DecidableEq

/-- The message of the error thrown when the unauthenticated path failed
and no access token was supplied. -/
def tokenRequiredMessage : String :=
  "Could not load video. For private videos, provide a Vimeo access token."

/-- Truthiness of the `accessToken` argument (`null` and `""` are falsy). -/
def tokenTruthy : Option String → Bool
  | none => false
  | some t => !(t == "")

/-- `VimeoHLSPlayer.loadVimeo`: normalize the identifier with
`VimeoAPI.extractVideoId(vimeoId) || vimeoId`; try the player-page fetch
and on success hand its url to `loadHLS`; on failure, with a truthy token
call the authenticated API and use its HLS url, treating an absent url as
the no-HLS error; without a token throw the token-required error.  The
outer catch renders any failure as the `"Failed to load Vimeo video"`
panel. -/
def loadVimeo (vimeoId : String) (accessToken : Option String)
    (playerFetch : String → Except String String)
    (apiFetch : String → Except String (Option String)) : VimeoLoadResult :=
  let videoId := (extractVideoId vimeoId).getD vimeoId
  match playerFetch videoId with
  | .ok hlsUrl =>
    { playerFetches := [videoId], apiFetches := [], loadSourceCalls := [hlsUrl],
      errorPanel := none }
  | .error _ =>
    if tokenTruthy accessToken then
      match apiFetch videoId with
      | .ok (some hlsUrl) =>
        { playerFetches := [videoId], apiFetches := [videoId],
          loadSourceCalls := [hlsUrl], errorPanel := none }
      | .ok none =>
        { playerFetches := [videoId], apiFetches := [videoId],
          loadSourceCalls := [],
          errorPanel := some ("Failed to load Vimeo video",
            "No HLS stream available for this video") }
      | .error msg =>
        { playerFetches := [videoId], apiFetches := [videoId],
          loadSourceCalls := [],
          errorPanel := some ("Failed to load Vimeo video", msg) }
    else
      { playerFetches := [videoId], apiFetches := [], loadSourceCalls := [],
        errorPanel := some ("Failed to load Vimeo video", tokenRequiredMessage) }

/-- C6: when the unauthenticated player-page resolution fails and no
access token was supplied, `loadVimeo` invokes `loadSource` on nothing,
renders the error panel whose message contains the token-required text,
and throws nothing to the caller (it returns plainly). -/
theorem loadVimeo_no_token_error (vimeoId : String)
    (playerFetch : String → Except String String)
    (apiFetch : String → Except String (Option String)) (msg : String)
    (hfail : playerFetch ((extractVideoId vimeoId).getD vimeoId) = .error msg) :
    (loadVimeo vimeoId none playerFetch apiFetch).loadSourceCalls = [] ∧
    (loadVimeo vimeoId none playerFetch apiFetch).errorPanel =
      some ("Failed to load Vimeo video", tokenRequiredMessage) ∧
    ∃ pre suf, tokenRequiredMessage.data =
      pre ++ "provide a Vimeo access token".data ++ suf := by
  rw [loadVimeo, hfail]
  exact ⟨rfl, rfl,
    ⟨"Could not load video. For private videos, ".data, ".".data, by decide⟩⟩

/-- Witness for C6 with a concrete failing player-page fetch. -/
theorem loadVimeo_no_token_error_witness :
    (loadVimeo "123" none (fun _ => .error "CORS_ERROR") (fun _ => .ok none)
      ).loadSourceCalls = [] ∧
    (loadVimeo "123" none (fun _ => .error "CORS_ERROR") (fun _ => .ok none)
      ).errorPanel = some ("Failed to load Vimeo video", tokenRequiredMessage) :=
  ⟨(loadVimeo_no_token_error "123" (fun _ => .error "CORS_ERROR")
      (fun _ => .ok none) "CORS_ERROR" rfl).1,
   (loadVimeo_no_token_error "123" (fun _ => .error "CORS_ERROR")
      (fun _ => .ok none) "CORS_ERROR" rfl).2.1⟩

/-- C3 (amended): on an input that matches none of the three URL shapes
and is not purely numeric, `extractVideoId` yields null and `loadVimeo`
falls back to the raw input (`extractVideoId(vimeoId) || vimeoId`) as the
video identifier, proceeding to the player-page network fetch with it —
there is no `InvalidIdentifier` failure in the code. -/
theorem loadVimeo_fallback_raw (vimeoId : String) (accessToken : Option String)
    (playerFetch : String → Except String String)
    (apiFetch : String → Except String (Option String))
    (h1 : ¬matchesPat pat1 vimeoId.data) (h2 : ¬matchesPat pat2 vimeoId.data)
    (h3 : ¬matchesPat pat3 vimeoId.data)
    (h4 : ¬(vimeoId.data ≠ [] ∧ ∀ c ∈ vimeoId.data, c.isDigit)) :
    extractVideoId vimeoId = none ∧
    (loadVimeo vimeoId accessToken playerFetch apiFetch).playerFetches =
      [vimeoId] := by
  have hid : extractVideoId vimeoId = none :=
    extractVideoId_eq_none vimeoId h1 h2 h3 h4
  refine ⟨hid, ?_⟩
  have hid' : (extractVideoId vimeoId).getD vimeoId = vimeoId := by
    rw [hid]
    rfl
  rw [loadVimeo, hid']
  cases hpf : playerFetch vimeoId with
  | ok u => rfl
  | error m =>
    cases htok : tokenTruthy accessToken with
    | false => rfl
    | true =>
      cases hap : apiFetch vimeoId with
      | ok o => cases o <;> rfl
      | error m2 => rfl

/-- Witness for C3's amended theorem at a concrete ill-formed input. -/
theorem loadVimeo_fallback_raw_witness :
    extractVideoId "watch?v=dQw4w9WgXcQ" = none ∧
    (loadVimeo "watch?v=dQw4w9WgXcQ" none (fun _ => .error "CORS_ERROR")
      (fun _ => .error "unused")).playerFetches = ["watch?v=dQw4w9WgXcQ"] :=
  loadVimeo_fallback_raw "watch?v=dQw4w9WgXcQ" none
    (fun _ => .error "CORS_ERROR") (fun _ => .error "unused")
    (by decide) (by decide) (by decide) (by decide)

/-- C3 counterexample: on the ill-formed input `"not a vimeo url!"`,
resolution does not fail — `loadVimeo` proceeds to the player-page
network fetch using the raw unnormalized input as the video identifier,
and the eventual failure is the token-required panel, not an
`InvalidIdentifier` error. -/
theorem loadVimeo_raw_input_fetched :
    extractVideoId "not a vimeo url!" = none ∧
    (loadVimeo "not a vimeo url!" none (fun _ => .error "CORS_ERROR")
      (fun _ => .error "unused")).playerFetches = ["not a vimeo url!"] ∧
    (loadVimeo "not a vimeo url!" none (fun _ => .error "CORS_ERROR")
      (fun _ => .error "unused")).errorPanel =
      some ("Failed to load Vimeo video", tokenRequiredMessage) :=
  ⟨rfl, rfl, rfl⟩

end VimeoHLS
